import Mathlib

/-!
Verification of the selection-to-enhancement coordinate pipeline and
history state machine of the photo-enhancement editor.

The definitions below are shallow embeddings of the corresponding
TypeScript functions; coordinates are modelled as exact rationals
(the source uses IEEE doubles, whose arithmetic on the small inputs
considered here coincides with the rational values).
-/

namespace Enhance

/-- A rectangle `{x, y, w, h}` (src: types; used throughout). -/
structure Rect where
  x : ℚ
  y : ℚ
  w : ℚ
  h : ℚ
deriving DecidableEq, Repr

/-- The padded context rect computed inline in `runEnhancementJob`
(src/unnamed/part_000 lines 296-313) and identically in
`handleRegenWithPrompt` (lines 474-491): expand the selection by
`padding` of its own width/height on each side, then clamp the low
edges to 0 and the high edges to the image dimensions.  The source
hard-codes `padding = 0.5`; the factor is a parameter here and is
instantiated at `1/2` wherever the source is evaluated. -/
def padRect (originalRect : Rect) (sourceImageWidth sourceImageHeight padding : ℚ) : Rect where
  x := max 0 (originalRect.x - originalRect.w * padding)
  y := max 0 (originalRect.y - originalRect.h * padding)
  w := min sourceImageWidth
        ((originalRect.x - originalRect.w * padding) + originalRect.w * (1 + 2 * padding))
      - max 0 (originalRect.x - originalRect.w * padding)
  h := min sourceImageHeight
        ((originalRect.y - originalRect.h * padding) + originalRect.h * (1 + 2 * padding))
      - max 0 (originalRect.y - originalRect.h * padding)

/-- The crop area within the enhanced padded image that corresponds to
the original selection (`finalCropRect`, src/unnamed/part_000 lines
337-342, identically lines 512-517): linear proportion of the original
rect inside the padded rect, scaled to the result image dimensions. -/
def finalCropRect (originalRect paddedRect : Rect) (resultW resultH : ℚ) : Rect where
  x := resultW * ((originalRect.x - paddedRect.x) / paddedRect.w)
  y := resultH * ((originalRect.y - paddedRect.y) / paddedRect.h)
  w := resultW * (originalRect.w / paddedRect.w)
  h := resultH * (originalRect.h / paddedRect.h)

/-- The dimensions requested from the enhancement backend
(src/unnamed/part_000 lines 316-318): width fixed at 1024, height
rounded to the nearest pixel preserving the padded rect aspect ratio. -/
def targetDims (paddedRect : Rect) : ℚ × ℚ :=
  (1024, ((round ((1024 : ℚ) * (paddedRect.h / paddedRect.w)) : ℤ) : ℚ))

/-- Modelled from the spec: `cropImage` (utils/imageUtils, not under
src/) crops `paddedRect` out of the current image and uniformly
resizes it to `resultW x resultH`; under that forward mapping a
rectangle `r` given in result-image coordinates corresponds to this
rectangle in padded-image (source) coordinates. -/
def resultRectToPadded (paddedRect : Rect) (resultW resultH : ℚ) (r : Rect) : Rect where
  x := paddedRect.x + r.x * paddedRect.w / resultW
  y := paddedRect.y + r.y * paddedRect.h / resultH
  w := r.w * paddedRect.w / resultW
  h := r.h * paddedRect.h / resultH

/-- Claim C3 counterexample: on the concrete scenario (selection
`{10,10,100,100}` on a 500x500 image, padding factor 1/2) the code
computes the padded rect `{0,0,160,160}`, not the `{0,0,200,200}` the
claim states: the high edge is `min(500, -40+200) = 160`, taken from
the unclamped low edge.  Consequently for a 1024x1024 result the
inverse mapping yields `{64,64,640,640}`, not `{51.2,51.2,512,512}`. -/
theorem padRect_scenario_counterexample :
    padRect ⟨10, 10, 100, 100⟩ 500 500 (1/2) = ⟨0, 0, 160, 160⟩ ∧
    padRect ⟨10, 10, 100, 100⟩ 500 500 (1/2) ≠ ⟨0, 0, 200, 200⟩ ∧
    finalCropRect ⟨10, 10, 100, 100⟩ (padRect ⟨10, 10, 100, 100⟩ 500 500 (1/2)) 1024 1024
      = ⟨64, 64, 640, 640⟩ ∧
    finalCropRect ⟨10, 10, 100, 100⟩ (padRect ⟨10, 10, 100, 100⟩ 500 500 (1/2)) 1024 1024
      ≠ ⟨256/5, 256/5, 512, 512⟩ := by
  refine ⟨?_, ?_, ?_, ?_⟩ <;>
    · simp only [padRect, finalCropRect, Rect.mk.injEq, ne_eq]
      norm_num [max_def, min_def]

/-- Claim C3 (amended): for the selection `{10,10,100,100}` on a
500x500 image with padding factor 1/2 the code computes the padded
rect `{0,0,160,160}`, and for a 1024x1024 enhanced result the inverse
mapping yields the result crop rect `{64,64,640,640}`. -/
theorem padRect_scenario :
    padRect ⟨10, 10, 100, 100⟩ 500 500 (1/2) = ⟨0, 0, 160, 160⟩ ∧
    finalCropRect ⟨10, 10, 100, 100⟩ (padRect ⟨10, 10, 100, 100⟩ 500 500 (1/2)) 1024 1024
      = ⟨64, 64, 640, 640⟩ := by
  refine ⟨?_, ?_⟩ <;>
    · simp only [padRect, finalCropRect, Rect.mk.injEq]
      norm_num [max_def, min_def]

/-- Claim C4: for every selection rect with positive width and height
and every padded rect containing it, the result crop rect computed by
`finalCropRect`, mapped back through the forward crop-and-resize (at
the requested dimensions `targetDims`), covers exactly the original
rect's footprint within the padded rect: the composition is the
identity on `originalRect`. -/
theorem inverseMap_roundtrip (originalRect paddedRect : Rect)
    (how : 0 < originalRect.w) (hoh : 0 < originalRect.h)
    (hpw : 0 < paddedRect.w) (hph : 0 < paddedRect.h)
    (hcx : paddedRect.x ≤ originalRect.x) (hcy : paddedRect.y ≤ originalRect.y)
    (hcx2 : originalRect.x + originalRect.w ≤ paddedRect.x + paddedRect.w)
    (hcy2 : originalRect.y + originalRect.h ≤ paddedRect.y + paddedRect.h)
    (hth : 0 < (targetDims paddedRect).2) :
    resultRectToPadded paddedRect (targetDims paddedRect).1 (targetDims paddedRect).2
      (finalCropRect originalRect paddedRect
        (targetDims paddedRect).1 (targetDims paddedRect).2)
      = originalRect := by
  obtain ⟨x, y, w, h⟩ := originalRect
  obtain ⟨px, py, pw, ph⟩ := paddedRect
  have hW : pw ≠ 0 := ne_of_gt hpw
  have hH : ph ≠ 0 := ne_of_gt hph
  simp only [targetDims] at hth ⊢
  simp only [resultRectToPadded, finalCropRect, Rect.mk.injEq]
  generalize hg : ((round ((1024 : ℚ) * (ph / pw)) : ℤ) : ℚ) = T at hth ⊢
  have hT : T ≠ 0 := ne_of_gt hth
  refine ⟨?_, ?_, ?_, ?_⟩ <;> field_simp

/-- Witness for C4 at the concrete selection `{10,10,100,100}` inside
the padded rect `{0,0,200,200}`. -/
theorem inverseMap_roundtrip_witness :
    resultRectToPadded ⟨0, 0, 200, 200⟩
      (targetDims ⟨0, 0, 200, 200⟩).1 (targetDims ⟨0, 0, 200, 200⟩).2
      (finalCropRect ⟨10, 10, 100, 100⟩ ⟨0, 0, 200, 200⟩
        (targetDims ⟨0, 0, 200, 200⟩).1 (targetDims ⟨0, 0, 200, 200⟩).2)
      = ⟨10, 10, 100, 100⟩ :=
  inverseMap_roundtrip ⟨10, 10, 100, 100⟩ ⟨0, 0, 200, 200⟩
    (by norm_num) (by norm_num) (by norm_num) (by norm_num)
    (by norm_num) (by norm_num) (by norm_num) (by norm_num)
    (by norm_num [targetDims, round_eq])

/-- The interactive viewport transform owned by `ImageDisplay`
(src/components/ImageDisplay.tsx line 25): screen = image * scale + pan. -/
structure Transform where
  x : ℚ
  y : ℚ
  scale : ℚ
deriving DecidableEq, Repr

/-- `clamp` (src/components/ImageDisplay.tsx line 18). -/
def clamp (val minV maxV : ℚ) : ℚ := max minV (min val maxV)

/-- One wheel-zoom step (`handleWheel`, src/components/ImageDisplay.tsx
lines 324-349): scale multiplied or divided by 1.1, clamped to
[0.25, 20], and the pan re-solved around the mouse position. -/
def handleWheel (transform : Transform) (mouseX mouseY : ℚ) (zoomIn : Bool) : Transform where
  x := mouseX - (mouseX - transform.x) *
        (clamp (if zoomIn then transform.scale * (11/10) else transform.scale / (11/10))
          (1/4) 20 / transform.scale)
  y := mouseY - (mouseY - transform.y) *
        (clamp (if zoomIn then transform.scale * (11/10) else transform.scale / (11/10))
          (1/4) 20 / transform.scale)
  scale := clamp (if zoomIn then transform.scale * (11/10) else transform.scale / (11/10))
            (1/4) 20

/-- Claim C6: one wheel-zoom step is pivot-invariant.  The image point
under the cursor is `(mouse - pan) / scale`; after the zoom (in either
direction, including when the new scale is clamped) its screen
coordinate `imagePoint * scale + pan` is again exactly the mouse
position.  Proved exactly over the rationals, hence in particular
within any floating-point tolerance. -/
theorem handleWheel_pivot_invariant (t : Transform) (mouseX mouseY : ℚ) (zoomIn : Bool)
    (hlo : 1/4 ≤ t.scale) (_hhi : t.scale ≤ 20) :
    ((mouseX - t.x) / t.scale) * (handleWheel t mouseX mouseY zoomIn).scale
        + (handleWheel t mouseX mouseY zoomIn).x = mouseX ∧
    ((mouseY - t.y) / t.scale) * (handleWheel t mouseX mouseY zoomIn).scale
        + (handleWheel t mouseX mouseY zoomIn).y = mouseY := by
  have hs : t.scale ≠ 0 := ne_of_gt (lt_of_lt_of_le (by norm_num) hlo)
  simp only [handleWheel]
  generalize clamp (if zoomIn then t.scale * (11/10) else t.scale / (11/10)) (1/4) 20 = c
  constructor <;> field_simp

/-- Witness for C6: concrete transform at scale 1, zooming in at the
pivot `(3, 4)`. -/
theorem handleWheel_pivot_invariant_witness :
    ((3 - (0:ℚ)) / 1) * (handleWheel ⟨0, 0, 1⟩ 3 4 true).scale
        + (handleWheel ⟨0, 0, 1⟩ 3 4 true).x = 3 ∧
    ((4 - (0:ℚ)) / 1) * (handleWheel ⟨0, 0, 1⟩ 3 4 true).scale
        + (handleWheel ⟨0, 0, 1⟩ 3 4 true).y = 4 :=
  handleWheel_pivot_invariant ⟨0, 0, 1⟩ 3 4 true (by norm_num) (by norm_num)

/-- Claim C7: for a selection inside the image bounds `[0,W]x[0,H]`
the padded rect stays inside `[0,W]x[0,H]` with non-negative width and
height; and when the selection is fully interior with room for the
full padding (factor `p`), the padded rect's area is `(1+2p)^2` times
the selection's area. -/
theorem padRect_bounds (r : Rect) (W H p : ℚ)
    (hx : 0 ≤ r.x) (hy : 0 ≤ r.y) (hw : 0 ≤ r.w) (hh : 0 ≤ r.h)
    (hxw : r.x + r.w ≤ W) (hyh : r.y + r.h ≤ H) (hp : 0 ≤ p) :
    (0 ≤ (padRect r W H p).x ∧ 0 ≤ (padRect r W H p).y ∧
     0 ≤ (padRect r W H p).w ∧ 0 ≤ (padRect r W H p).h ∧
     (padRect r W H p).x + (padRect r W H p).w ≤ W ∧
     (padRect r W H p).y + (padRect r W H p).h ≤ H) ∧
    (0 ≤ r.x - r.w * p → 0 ≤ r.y - r.h * p →
     r.x + r.w * (1 + p) ≤ W → r.y + r.h * (1 + p) ≤ H →
     (padRect r W H p).w * (padRect r W H p).h = (1 + 2 * p) ^ 2 * (r.w * r.h)) := by
  obtain ⟨x, y, w, h⟩ := r
  simp only [padRect] at *
  have hwp : 0 ≤ w * p := mul_nonneg hw hp
  have hhp : 0 ≤ h * p := mul_nonneg hh hp
  have hw2 : 0 ≤ w * (1 + 2 * p) := mul_nonneg hw (by linarith)
  have hh2 : 0 ≤ h * (1 + 2 * p) := mul_nonneg hh (by linarith)
  have hxr : (x - w * p) + w * (1 + 2 * p) = x + w + w * p := by ring
  have hyr : (y - h * p) + h * (1 + 2 * p) = y + h + h * p := by ring
  have hminx : max 0 (x - w * p) ≤ min W ((x - w * p) + w * (1 + 2 * p)) :=
    le_min (max_le (by linarith) (by linarith)) (max_le (by linarith) (by linarith))
  have hminy : max 0 (y - h * p) ≤ min H ((y - h * p) + h * (1 + 2 * p)) :=
    le_min (max_le (by linarith) (by linarith)) (max_le (by linarith) (by linarith))
  have hminWx := min_le_left W ((x - w * p) + w * (1 + 2 * p))
  have hminHy := min_le_left H ((y - h * p) + h * (1 + 2 * p))
  refine ⟨⟨le_max_left _ _, le_max_left _ _, by linarith, by linarith, by linarith, by linarith⟩,
    ?_⟩
  intro h1 h2 h3 h4
  rw [max_eq_right h1, max_eq_right h2,
    min_eq_right (by linarith : (x - w * p) + w * (1 + 2 * p) ≤ W),
    min_eq_right (by linarith : (y - h * p) + h * (1 + 2 * p) ≤ H)]
  ring

/-- Witness for C7 at the selection `{100,100,50,50}` on a 500x500
image with padding factor 1/2 (fully interior, full padding fits):
bounds hold and the padded area is 4 times the selection's area. -/
theorem padRect_bounds_witness :
    (0 ≤ (padRect ⟨100, 100, 50, 50⟩ 500 500 (1/2)).x ∧
     0 ≤ (padRect ⟨100, 100, 50, 50⟩ 500 500 (1/2)).y ∧
     0 ≤ (padRect ⟨100, 100, 50, 50⟩ 500 500 (1/2)).w ∧
     0 ≤ (padRect ⟨100, 100, 50, 50⟩ 500 500 (1/2)).h ∧
     (padRect ⟨100, 100, 50, 50⟩ 500 500 (1/2)).x
        + (padRect ⟨100, 100, 50, 50⟩ 500 500 (1/2)).w ≤ 500 ∧
     (padRect ⟨100, 100, 50, 50⟩ 500 500 (1/2)).y
        + (padRect ⟨100, 100, 50, 50⟩ 500 500 (1/2)).h ≤ 500) ∧
    (padRect ⟨100, 100, 50, 50⟩ 500 500 (1/2)).w
        * (padRect ⟨100, 100, 50, 50⟩ 500 500 (1/2)).h
      = (1 + 2 * (1/2)) ^ 2 * ((50 : ℚ) * 50) := by
  have h := padRect_bounds ⟨100, 100, 50, 50⟩ 500 500 (1/2)
    (by norm_num) (by norm_num) (by norm_num) (by norm_num)
    (by norm_num) (by norm_num) (by norm_num)
  exact ⟨h.1, h.2 (by norm_num) (by norm_num) (by norm_num) (by norm_num)⟩

/-- `ImageDescription` (src: types; produced by the description
service): a selection description plus the generation prompt. -/
structure ImageDescription where
  selectionDescription : String
  prompt : String
deriving DecidableEq, Repr

/-- `HistoryStep` (src: types): an image handle plus, for every step
after the root, the description and the enhanced rect that produced it. -/
structure HistoryStep where
  imageSrc : String
  description : Option ImageDescription
  originalRect : Option Rect
deriving DecidableEq, Repr

/-- `AppState` (src: types; all constructors appearing in the sources). -/
inductive AppState where
  | LOADING
  | IDLE
  | LOADED
  | SELECTING
  | ANALYZING
  | ENHANCING
  | ENHANCED
  | CONVERTING
deriving DecidableEq, Repr

/-- `EnhancementJob` (src/unnamed/part_000 lines 23-28): the in-flight
request state created at selection confirmation. -/
structure EnhancementJob where
  originalRect : Rect
  canvasWithSelectionDataUrl : String
  pixelatedSrc : String
  screenRect : Rect
deriving DecidableEq, Repr

/-- The `App` component state relevant to the history state machine
(src/unnamed/part_000 lines 63-85).  `historyIndex` is an integer
because the source uses `-1` for the empty, uninitialized state. -/
structure AppModel where
  appState : AppState
  history : List HistoryStep
  historyIndex : Int
  isGeneratingGif : Bool
  displaySelection : Option Rect
  finalImageSrc : Option String
  imageLoaded : Bool
  enhancementJob : Option EnhancementJob
  newHistoryEntryData : Option (ImageDescription × Rect)
  errorMessage : Option String
  finalEnhancementRect : Option Rect
  pixelatedImageSrc : Option String
  enhancedImageSrc : Option String
  showBananaBanner : Bool
deriving DecidableEq, Repr

/-- The history commit performed by `handleEnhancementComplete`
(src/unnamed/part_000 lines 363-388): if an enhanced image and the new
entry data are present, truncate the history after `historyIndex`,
append the new step, and point at it; otherwise do nothing. -/
def handleEnhancementComplete (s : AppModel) : AppModel :=
  match s.enhancedImageSrc, s.newHistoryEntryData with
  | some enhancedSrc, some entry =>
    let newHistory := s.history.take (s.historyIndex + 1).toNat
    { s with
      history := newHistory ++ [⟨enhancedSrc, some entry.1, some entry.2⟩],
      historyIndex := (newHistory.length : Int),
      finalImageSrc := some enhancedSrc,
      enhancedImageSrc := none,
      finalEnhancementRect := none,
      newHistoryEntryData := none,
      displaySelection := none,
      appState := AppState.LOADED }
  | _, _ => s

/-- The history commit performed by `runFullImageEnhancement`
(src/unnamed/part_000 lines 571-588): the appended step is included in
`newHistory` and the pointer is then set to `newHistory.length`. -/
def runFullImageEnhancementCommit (s : AppModel) (enhancedSrc : String)
    (description : ImageDescription) (originalRect : Rect) : AppModel :=
  let newHistory := s.history.take (s.historyIndex + 1).toNat
      ++ [⟨enhancedSrc, some description, some originalRect⟩]
  { s with
    history := newHistory,
    historyIndex := (newHistory.length : Int),
    finalImageSrc := some enhancedSrc,
    displaySelection := none,
    appState := AppState.LOADED }

/-- The history commit performed by `handleRegenWithPrompt`
(src/unnamed/part_000 lines 524-540): the history becomes
`history.slice(0, historyIndex)` with the regenerated step appended;
`setHistoryIndex` is never called, so the pointer is unchanged. -/
def handleRegenCommit (s : AppModel) (newStep : HistoryStep) : AppModel :=
  { s with
    history := s.history.take s.historyIndex.toNat ++ [newStep],
    displaySelection := none,
    finalImageSrc := some newStep.imageSrc,
    appState := AppState.LOADED }

/-- `handleUndo` (src/unnamed/part_000 lines 404-419). -/
def handleUndo (s : AppModel) : AppModel :=
  if s.historyIndex ≤ 0 ∨ s.appState = AppState.ENHANCING ∨ s.isGeneratingGif then s
  else
    let newIndex := s.historyIndex - 1
    { s with
      historyIndex := newIndex,
      displaySelection := (s.history.get? (newIndex + 1).toNat).bind (·.originalRect),
      finalImageSrc :=
        match s.history.get? newIndex.toNat with
        | some st => some st.imageSrc
        | none => s.finalImageSrc }

/-- `handleRedo` (src/unnamed/part_000 lines 421-436). -/
def handleRedo (s : AppModel) : AppModel :=
  if (s.history.length : Int) - 1 ≤ s.historyIndex
      ∨ s.appState = AppState.ENHANCING ∨ s.isGeneratingGif then s
  else
    let newIndex := s.historyIndex + 1
    { s with
      historyIndex := newIndex,
      displaySelection := (s.history.get? (newIndex + 1).toNat).bind (·.originalRect),
      finalImageSrc :=
        match s.history.get? newIndex.toNat with
        | some st => some st.imageSrc
        | none => s.finalImageSrc }

/-- `true` exactly on `Except.error`. -/
def isErr {ε α : Type} : Except ε α → Bool
  | Except.error _ => true
  | Except.ok _ => false

/-- The state effects of one run of `runEnhancementJob`
(src/unnamed/part_000 lines 282-361), with its three asynchronous
suspension points passed in as oracles: the description call, the
enhancement call, and the decode-plus-final-crop of the returned
image (whose payload is the final cropped image source).  Error
payloads carry the already-formatted human-readable message (the
`getApiErrorMessage` string mangling is out of scope).  The `catch`
branch surfaces the message, drops back to `LOADED` and clears the
final enhancement rect; the `finally` branch clears the in-flight job
in every case. -/
def runEnhancementJobModel (s : AppModel)
    (descR : Except String ImageDescription)
    (enhR : Except String (String × Bool))
    (decR : Except String String) : AppModel :=
  if s.enhancementJob = none ∨ ¬ s.imageLoaded then s
  else
    match s.enhancementJob with
    | none => s
    | some job =>
      let fail : AppModel → String → AppModel := fun t e =>
        { t with
          errorMessage := some e,
          appState := AppState.LOADED,
          finalEnhancementRect := none,
          enhancementJob := none }
      match descR with
      | Except.error e => fail s e
      | Except.ok description =>
        let s1 := { s with newHistoryEntryData := some (description, job.originalRect) }
        match enhR with
        | Except.error e => fail s1 e
        | Except.ok (_enhancedPaddedSrc, foundTheBanana) =>
          let s2 := if foundTheBanana then { s1 with showBananaBanner := true } else s1
          match decR with
          | Except.error e => fail s2 e
          | Except.ok enhancedSrc =>
            { s2 with
              pixelatedImageSrc := some job.pixelatedSrc,
              enhancedImageSrc := some enhancedSrc,
              appState := AppState.ENHANCED,
              enhancementJob := none }

/-- Concrete root history step. -/
def rootStep : HistoryStep := ⟨"root", none, none⟩

/-- Concrete enhancement step. -/
def stepA : HistoryStep := ⟨"stepA", some ⟨"descA", "promptA"⟩, some ⟨1, 1, 2, 2⟩⟩

/-- Concrete enhancement step. -/
def stepB : HistoryStep := ⟨"stepB", some ⟨"descB", "promptB"⟩, some ⟨3, 3, 4, 4⟩⟩

/-- Concrete enhancement step. -/
def stepC : HistoryStep := ⟨"stepC", some ⟨"descC", "promptC"⟩, some ⟨5, 5, 6, 6⟩⟩

/-- A freshly loaded editor state: one-element history, pointer 0. -/
def baseModel : AppModel where
  appState := AppState.LOADED
  history := [rootStep]
  historyIndex := 0
  isGeneratingGif := false
  displaySelection := none
  finalImageSrc := some "root"
  imageLoaded := true
  enhancementJob := none
  newHistoryEntryData := none
  errorMessage := none
  finalEnhancementRect := none
  pixelatedImageSrc := none
  enhancedImageSrc := none
  showBananaBanner := false

/-- Claim C1 counterexample: regenerating at index 1 of the 3-step
history `[root, stepA, stepB]` yields the history `[root, stepC]` —
the step at index 2 is removed, contradicting the claim that steps
strictly after the replaced index are left in place. -/
theorem handleRegenCommit_counterexample :
    (handleRegenCommit
        { baseModel with history := [rootStep, stepA, stepB], historyIndex := 1 }
        stepC).history = [rootStep, stepC] ∧
    (handleRegenCommit
        { baseModel with history := [rootStep, stepA, stepB], historyIndex := 1 }
        stepC).history.get? 2 = none :=
  ⟨rfl, rfl⟩

/-- Claim C1 (amended): regeneration at history index `i > 0` replaces
the step at index `i` and discards every step at an index strictly
after `i` (the resulting history has length `i + 1`); every step
strictly before `i` is unchanged and the current pointer is unchanged. -/
theorem handleRegenCommit_frame (s : AppModel) (newStep : HistoryStep)
    (h0 : 0 < s.historyIndex) (hlen : s.historyIndex < (s.history.length : Int)) :
    (handleRegenCommit s newStep).historyIndex = s.historyIndex ∧
    ((handleRegenCommit s newStep).history.length : Int) = s.historyIndex + 1 ∧
    (∀ j : ℕ, (j : Int) < s.historyIndex →
      (handleRegenCommit s newStep).history.get? j = s.history.get? j) ∧
    (handleRegenCommit s newStep).history.get? s.historyIndex.toNat = some newStep := by
  simp only [handleRegenCommit]
  have htake : (s.history.take s.historyIndex.toNat).length = s.historyIndex.toNat := by
    simp only [List.length_take]
    omega
  refine ⟨trivial, ?_, ?_, ?_⟩
  · simp only [List.length_append, htake, List.length_singleton]
    omega
  · intro j hj
    rw [List.get?_append (by omega : j < (s.history.take s.historyIndex.toNat).length),
      List.get?_take (by omega : j < s.historyIndex.toNat)]
  · rw [List.get?_append_right (by omega : (s.history.take s.historyIndex.toNat).length
        ≤ s.historyIndex.toNat)]
    simp only [htake, Nat.sub_self, List.get?_cons_zero]

/-- The spec's regeneration scenario state: three-step history viewed
at the tail. -/
def regenState : AppModel :=
  { baseModel with history := [rootStep, stepA, stepB], historyIndex := 2 }

/-- Witness for the amended C1 at the three-step history viewed at the
tail (the spec's own regeneration scenario). -/
theorem handleRegenCommit_frame_witness :
    (handleRegenCommit regenState stepC).historyIndex = regenState.historyIndex ∧
    ((handleRegenCommit regenState stepC).history.length : Int) = regenState.historyIndex + 1 ∧
    (handleRegenCommit regenState stepC).history.get? 0 = regenState.history.get? 0 ∧
    (handleRegenCommit regenState stepC).history.get? regenState.historyIndex.toNat
      = some stepC :=
  have h := handleRegenCommit_frame regenState stepC (by decide) (by decide)
  ⟨h.1, h.2.1, h.2.2.1 0 (by decide), h.2.2.2⟩

/-- Claim C2 (evaluation at the failing input): after a full-image
auto-enhancement from a freshly loaded one-step history, the code sets
`historyIndex` to 2 while the history has length 2 — the pointer
equals the length instead of `length - 1`, violating the invariant
`0 <= currentIndex < length` for a non-empty history.  (The parallel
commit path `handleEnhancementComplete` sets the pointer to the length
of the history *excluding* the appended step; `runFullImageEnhancement`
includes the appended step and then still assigns the full length.) -/
theorem runFullImageEnhancementCommit_pointer_out_of_bounds :
    (runFullImageEnhancementCommit baseModel "enhanced" ⟨"d", "p"⟩ ⟨0, 0, 500, 500⟩).historyIndex
      = 2 ∧
    (runFullImageEnhancementCommit baseModel "enhanced" ⟨"d", "p"⟩ ⟨0, 0, 500, 500⟩).history.length
      = 2 ∧
    ¬ ((runFullImageEnhancementCommit baseModel "enhanced" ⟨"d", "p"⟩ ⟨0, 0, 500, 500⟩).historyIndex
        < ((runFullImageEnhancementCommit baseModel "enhanced" ⟨"d", "p"⟩
            ⟨0, 0, 500, 500⟩).history.length : Int)) :=
  ⟨rfl, rfl, by decide⟩

/-- Claim C5: committing a new enhancement step from a state whose
pointer is not at the tail first discards all steps after the pointer
and then appends the new step: the resulting length is
`currentIndex + 2`, the pointer moves to the new tail, every step at
an index at most the old pointer is unchanged, and the appended step
is built from the enhanced image and the pending entry data. -/
theorem handleEnhancementComplete_commitNew (s : AppModel)
    (e : String) (d : ImageDescription × Rect)
    (hsrc : s.enhancedImageSrc = some e) (hdata : s.newHistoryEntryData = some d)
    (h0 : 0 ≤ s.historyIndex) (hlen : s.historyIndex < (s.history.length : Int) - 1) :
    ((handleEnhancementComplete s).history.length : Int) = s.historyIndex + 2 ∧
    (handleEnhancementComplete s).historyIndex = s.historyIndex + 1 ∧
    (handleEnhancementComplete s).historyIndex
      = ((handleEnhancementComplete s).history.length : Int) - 1 ∧
    (∀ j : ℕ, (j : Int) ≤ s.historyIndex →
      (handleEnhancementComplete s).history.get? j = s.history.get? j) ∧
    (handleEnhancementComplete s).history.get? (s.historyIndex + 1).toNat
      = some ⟨e, some d.1, some d.2⟩ := by
  simp only [handleEnhancementComplete, hsrc, hdata]
  have htake : (s.history.take (s.historyIndex + 1).toNat).length
      = (s.historyIndex + 1).toNat := by
    simp only [List.length_take]
    omega
  refine ⟨?_, ?_, ?_, ?_, ?_⟩
  · simp only [List.length_append, htake, List.length_singleton]
    omega
  · simp only [htake]
    omega
  · simp only [List.length_append, htake, List.length_singleton]
    omega
  · intro j hj
    rw [List.get?_append (by omega : j < (s.history.take (s.historyIndex + 1).toNat).length),
      List.get?_take (by omega : j < (s.historyIndex + 1).toNat)]
  · rw [List.get?_append_right
      (by omega : (s.history.take (s.historyIndex + 1).toNat).length
        ≤ (s.historyIndex + 1).toNat)]
    simp only [htake, Nat.sub_self, List.get?_cons_zero]

/-- A state two undos back in a three-step history with a settled
enhancement pending commit. -/
def pendingCommitState : AppModel :=
  { baseModel with
    history := [rootStep, stepA, stepB],
    historyIndex := 0,
    enhancedImageSrc := some "enh",
    newHistoryEntryData := some (⟨"d", "p"⟩, ⟨0, 0, 1, 1⟩) }

/-- Witness for C5: committing after two undos in a three-step history
truncates to the root and appends, giving length 2 with the pointer at
the new tail. -/
theorem handleEnhancementComplete_commitNew_witness :
    ((handleEnhancementComplete pendingCommitState).history.length : Int)
      = pendingCommitState.historyIndex + 2 ∧
    (handleEnhancementComplete pendingCommitState).historyIndex
      = pendingCommitState.historyIndex + 1 ∧
    (handleEnhancementComplete pendingCommitState).historyIndex
      = ((handleEnhancementComplete pendingCommitState).history.length : Int) - 1 ∧
    (handleEnhancementComplete pendingCommitState).history.get? 0
      = pendingCommitState.history.get? 0 ∧
    (handleEnhancementComplete pendingCommitState).history.get?
        (pendingCommitState.historyIndex + 1).toNat
      = some ⟨"enh", some ⟨"d", "p"⟩, some ⟨0, 0, 1, 1⟩⟩ :=
  have h := handleEnhancementComplete_commitNew pendingCommitState "enh"
    (⟨"d", "p"⟩, ⟨0, 0, 1, 1⟩) rfl rfl (by decide) (by decide)
  ⟨h.1, h.2.1, h.2.2.1, h.2.2.2.1 0 (by decide), h.2.2.2.2⟩

/-- Claim C8: for one run of the enhancement job with an in-flight job
present, the in-flight job is cleared no matter how the run ends (the
`finally` clause), and if any of the three asynchronous steps fails
(description call, enhancement call, or result decode) the history and
its pointer are untouched — no partial commit — and the editor drops
back to the `LOADED` state with the pending enhancement rect cleared. -/
theorem runEnhancementJob_failure_frame (s : AppModel)
    (descR : Except String ImageDescription) (enhR : Except String (String × Bool))
    (decR : Except String String)
    (hjob : s.enhancementJob.isSome = true) (himg : s.imageLoaded = true) :
    (runEnhancementJobModel s descR enhR decR).enhancementJob = none ∧
    (isErr descR = true ∨ isErr enhR = true ∨ isErr decR = true →
      (runEnhancementJobModel s descR enhR decR).history = s.history ∧
      (runEnhancementJobModel s descR enhR decR).historyIndex = s.historyIndex ∧
      (runEnhancementJobModel s descR enhR decR).appState = AppState.LOADED ∧
      (runEnhancementJobModel s descR enhR decR).finalEnhancementRect = none) := by
  obtain ⟨job, hj⟩ := Option.isSome_iff_exists.mp hjob
  rcases descR with e | d
  · simp [runEnhancementJobModel, isErr, hj, himg]
  · rcases enhR with e2 | ⟨src, b⟩
    · simp [runEnhancementJobModel, isErr, hj, himg]
    · rcases decR with e3 | f
      · cases b <;> simp [runEnhancementJobModel, isErr, hj, himg]
      · cases b <;> simp [runEnhancementJobModel, isErr, hj, himg]

/-- An editor state with an enhancement in flight. -/
def jobState : AppModel :=
  { baseModel with
    appState := AppState.ENHANCING,
    enhancementJob := some ⟨⟨10, 10, 100, 100⟩, "canvas", "pix", ⟨20, 20, 50, 50⟩⟩,
    finalEnhancementRect := some ⟨1, 1, 2, 2⟩ }

/-- Witness for C8: a failing description call on a state with an
in-flight job leaves the history untouched, returns to `LOADED`, and
clears the job. -/
theorem runEnhancementJob_failure_frame_witness :
    (runEnhancementJobModel jobState (Except.error "boom")
        (Except.ok ("img", false)) (Except.ok "final")).enhancementJob = none ∧
    (runEnhancementJobModel jobState (Except.error "boom")
        (Except.ok ("img", false)) (Except.ok "final")).history = jobState.history ∧
    (runEnhancementJobModel jobState (Except.error "boom")
        (Except.ok ("img", false)) (Except.ok "final")).historyIndex = jobState.historyIndex ∧
    (runEnhancementJobModel jobState (Except.error "boom")
        (Except.ok ("img", false)) (Except.ok "final")).appState = AppState.LOADED ∧
    (runEnhancementJobModel jobState (Except.error "boom")
        (Except.ok ("img", false)) (Except.ok "final")).finalEnhancementRect = none :=
  have h := runEnhancementJob_failure_frame jobState (Except.error "boom")
    (Except.ok ("img", false)) (Except.ok "final") rfl rfl
  ⟨h.1, h.2 (Or.inl rfl)⟩

/-- Claim C9 counterexample: in the `ANALYZING` state (while the
settings advisor is running) with the pointer at index 1, `handleUndo`
is *not* a rejected no-op — its guard checks only the `ENHANCING`
state and the GIF flag — so it decrements the pointer, contradicting
the claim that undo is rejected in the analyzing state. -/
theorem handleUndo_analyzing_counterexample :
    ({ baseModel with
        appState := AppState.ANALYZING,
        history := [rootStep, stepA],
        historyIndex := 1 } : AppModel).appState = AppState.ANALYZING ∧
    (handleUndo { baseModel with
        appState := AppState.ANALYZING,
        history := [rootStep, stepA],
        historyIndex := 1 }).historyIndex = 0 ∧
    handleUndo { baseModel with
        appState := AppState.ANALYZING,
        history := [rootStep, stepA],
        historyIndex := 1 }
      ≠ { baseModel with
        appState := AppState.ANALYZING,
        history := [rootStep, stepA],
        historyIndex := 1 } := by
  refine ⟨rfl, rfl, ?_⟩
  intro hEq
  have h := congrArg AppModel.historyIndex hEq
  simp [handleUndo, baseModel] at h

/-- Claim C9 (amended): `undo()` at pointer 0 and `redo()` at the tail
are rejected no-ops (the whole state is unchanged), and both are
rejected no-ops while the app is `ENHANCING` or while a GIF export is
running.  (In the `ANALYZING` and `CONVERTING` states the handlers
themselves do not reject; the UI instead only renders the undo/redo
controls in the `LOADED` state.) -/
theorem undo_redo_guards (s : AppModel) :
    (s.historyIndex = 0 → handleUndo s = s) ∧
    (s.historyIndex = (s.history.length : Int) - 1 → handleRedo s = s) ∧
    (s.appState = AppState.ENHANCING ∨ s.isGeneratingGif = true →
      handleUndo s = s ∧ handleRedo s = s) := by
  refine ⟨?_, ?_, ?_⟩
  · intro h
    simp [handleUndo, h]
  · intro h
    simp [handleRedo, h]
  · intro h
    rcases h with h | h <;> exact ⟨by simp [handleUndo, h], by simp [handleRedo, h]⟩

/-- Witness for the amended C9 at concrete states: undo at the root of
a fresh history, redo at the tail, and both while a GIF export runs. -/
theorem undo_redo_guards_witness :
    handleUndo baseModel = baseModel ∧
    handleRedo baseModel = baseModel ∧
    (handleUndo { baseModel with isGeneratingGif := true }
        = { baseModel with isGeneratingGif := true } ∧
      handleRedo { baseModel with isGeneratingGif := true }
        = { baseModel with isGeneratingGif := true }) :=
  ⟨(undo_redo_guards baseModel).1 rfl,
    (undo_redo_guards baseModel).2.1 (by decide),
    (undo_redo_guards { baseModel with isGeneratingGif := true }).2.2 (Or.inr rfl)⟩

/-- `getQualityModifiers` (src/utils/serviceEnhance.ts lines 17-31):
prose modifiers selected from the sharpness and denoise dials; the
ranges 21-60 contribute nothing. -/
def getQualityModifiers (sharpness denoise : Int) : List String :=
  (if sharpness ≤ 20 then
    ["have a soft focus, maintaining the original level of detail"]
  else if 61 ≤ sharpness ∧ sharpness ≤ 80 then
    ["have a sharp, crisp finish, adding subtle, plausible details where the image is slightly blurry"]
  else if 81 ≤ sharpness then
    ["be extremely sharp, with highly defined details. Where the image is blurry, you must invent and add intricate, photorealistic details that are consistent with the surrounding context"]
  else []) ++
  (if denoise ≤ 20 then
    ["preserve the original film grain and texture"]
  else if 61 ≤ denoise ∧ denoise ≤ 80 then
    ["apply significant noise reduction for a clean look"]
  else if 81 ≤ denoise then
    ["be almost completely free of noise and grain, resulting in a very smooth image"]
  else [])

/-- `getImaginationInstructions` (src/utils/serviceEnhance.ts lines
33-45): the creative-guidance paragraph selected from the imagination
dial. -/
def getImaginationInstructions (imagination : Int) : String :=
  if imagination ≤ 20 then
    "The final image should be a direct, high-resolution upscale of the input. Stick as closely as possible to the original image\x27s shapes, colors, and content. Do not add or remove any elements."
  else if imagination ≤ 40 then
    "Subtly enhance the details. You can introduce small, plausible textures and details that are hinted at in the original, but do not add new objects or significantly alter the composition."
  else if imagination ≤ 60 then
    "Be moderately creative. You can reinterpret blurry or ambiguous areas into more defined objects and textures that fit the context. The overall theme and composition should remain consistent with the original."
  else if imagination ≤ 80 then
    "Use your imagination. You can add new elements and transform parts of the scene, as long as it\x27s clearly inspired by the original image\x27s colors and shapes. The result can be a creative interpretation."
  else
    "Transform the image into something fantastical and surreal. The original image is merely a starting point for a highly imaginative and artistic creation. Feel free to completely reimagine the scene."

/-- The generation prompt built by `serviceEnhance`
(src/utils/serviceEnhance.ts lines 47-79): rejects an empty prompt
history before any backend request, otherwise uses only the *last*
history element (`history[history.length-1]`, with a fallback for the
empty string) together with the quality and imagination instructions
and the optional easter-egg paragraph. -/
def serviceEnhanceGenerationPrompt (history : List String) (seekNanoBanana : Bool)
    (sharpness denoise imagination : Int) : Except String String :=
  if history.length = 0 then
    Except.error "Enhancement history is empty."
  else
    let context := history.getLastD ""
    let qualityModifiers := getQualityModifiers sharpness denoise
    let qualityInstructions :=
      if qualityModifiers.length > 0 then
        "The final image should " ++ String.intercalate " and " qualityModifiers ++ "."
      else ""
    let imaginationInstructions := getImaginationInstructions imagination
    Except.ok
      ("The provided image is a low-resolution crop, described as: \"" ++
        (if context = "" then "an unknown scene" else context) ++
        "\". Your task is to upscale it into a high-resolution, detailed image.\n\n**Creative Guidance:** " ++
        imaginationInstructions ++
        "\n\n**Quality Instructions:** " ++
        (if qualityInstructions = "" then "Use default quality settings." else qualityInstructions) ++
        "\n\n**Boundary Rules:** The resulting image must be a plausible, higher-resolution version of the input, interpreted through the creative guidance above. It should build upon the shapes and colors present in the reference image.\n" ++
        (if seekNanoBanana then
          "\n**Easter Egg:** There\x27s a small chance you can hide a \"nano banana\" 🍌 in the image. Be subtle. If you add a banana, respond with the text part as a JSON object: `\x7b\"foundTheBanana\": true\x7d`. Otherwise, do not include a text part or set it to `\x7b\"foundTheBanana\": false\x7d`."
        else ""))

/-- Claim C10: the generation prompt depends only on the *last*
element of the prompt history (together with the easter-egg flag and
the sharpness, denoise and imagination dials): two non-empty histories
with the same last element yield an identical request prompt; an empty
history is rejected with an error before any backend request. -/
theorem serviceEnhance_prompt_depends_only_on_last (h1 h2 : List String) (seek : Bool)
    (sharpness denoise imagination : Int)
    (hne1 : h1 ≠ []) (hne2 : h2 ≠ []) (hlast : h1.getLastD "" = h2.getLastD "") :
    serviceEnhanceGenerationPrompt h1 seek sharpness denoise imagination
      = serviceEnhanceGenerationPrompt h2 seek sharpness denoise imagination ∧
    serviceEnhanceGenerationPrompt [] seek sharpness denoise imagination
      = Except.error "Enhancement history is empty." := by
  have e1 : ¬ (h1.length = 0) := by simpa [List.length_eq_zero] using hne1
  have e2 : ¬ (h2.length = 0) := by simpa [List.length_eq_zero] using hne2
  constructor
  · simp only [serviceEnhanceGenerationPrompt, if_neg e1, if_neg e2, hlast]
  · rfl

/-- Witness for C10: two histories differing everywhere except the
last element produce the same prompt, and the empty history is
rejected. -/
theorem serviceEnhance_prompt_witness :
    serviceEnhanceGenerationPrompt ["old", "same"] true 50 50 0
      = serviceEnhanceGenerationPrompt ["other", "extra", "same"] true 50 50 0 ∧
    serviceEnhanceGenerationPrompt [] true 50 50 0
      = Except.error "Enhancement history is empty." :=
  serviceEnhance_prompt_depends_only_on_last ["old", "same"] ["other", "extra", "same"]
    true 50 50 0 (by decide) (by decide) rfl

end Enhance
